import Mathlib

/-!
Verification of the appengine-hosting static website server.

This file gives a shallow embedding of the request pipeline implemented in
the Go source (package `app`): the conditional-request evaluator
`checkConditions`, the clean-URL canonicalizer `getCleanURL`, the object
resolver `getMetadata` / `getRewriteMetadata`, the dispatchers `sendBlob`,
`sendBlobBody` and `sendNotFound`, the query re-encoder `getQuery`, and the
top-level `staticWebsiteHandler`, together with theorems about them.

Modelling conventions:
- Go strings are modelled as Lean `String`s viewed as their character
  lists; paths and headers in this program are ASCII, where Go's byte
  indexing and Lean's character indexing agree.
- Origin HTTP calls are modelled by oracle functions passed as arguments
  (`HeadResult` for `HEAD`, `GetResult` for `GET`): a transport error and a
  received response are the two cases. The resolver results additionally
  record the list of probed object paths, in order.
- `http.ParseTime` is modelled by an arbitrary parse function
  `String → Option Int` (timestamps as integers); theorems quantify over
  it. `net/url`'s query parsing and encoding (used by `r.URL.Query()` and
  `Values.Encode`) are modelled byte-for-byte for ASCII input.
- The firebase rules engine (`processRedirects`, `processRewrites`,
  `processHeaders`) and the `FirebaseConfiguration` / `HttpResult` type
  declarations live outside the given source file; they are modelled from
  the spec's rules-engine interface as opaque function fields, which is
  exactly how the source consumes them.
-/

namespace Hosting

/-- Whether the first list is an initial segment of the second. -/
def charsHavePre : List Char → List Char → Bool
  | [], _ => true
  | _ :: _, [] => false
  | a :: as, b :: bs => a == b && charsHavePre as bs

/-- Whether the first list occurs as a contiguous segment of the second. -/
def charsHaveSub (needle : List Char) : List Char → Bool
  | [] => needle.isEmpty
  | b :: rest => charsHavePre needle (b :: rest) || charsHaveSub needle rest

/-- Go strings.Contains: `needle` occurs as a substring of `haystack`. -/
def goContains (haystack needle : String) : Bool :=
  charsHaveSub needle.data haystack.data

/-- Go strings.HasSuffix. -/
def goHasSuffix (s suffix : String) : Bool :=
  charsHavePre suffix.data.reverse s.data.reverse

/-- Go strings.TrimSuffix: drop `suffix` from the end of `s` when present. -/
def goTrimSuffix (s suffix : String) : String :=
  if goHasSuffix s suffix then ⟨s.data.take (s.data.length - suffix.data.length)⟩ else s

/-- List form of Go strings.TrimRight(s, "/"): drop all trailing slashes. -/
def trimSlashList (l : List Char) : List Char :=
  (l.reverse.dropWhile (fun c => c == '/')).reverse

/-- Go strings.TrimRight(s, "/"). -/
def trimRightSlash (s : String) : String :=
  ⟨trimSlashList s.data⟩

/-- Whether the first byte of `s` is a slash (Go `s[0] == '/'` under the
guard `len(s) > 1`). -/
def leadingSlash (s : String) : Bool :=
  s.data.head? == some '/'

/-- The conditional request headers read by `checkConditions`. The two
match headers are `some values` exactly when present in the request
(Go `r.Header["If-Match"]` with its value list); the two date headers are
the raw strings `r.Header.Get` returns (empty if absent). -/
structure CondRequest where
  ifMatch : Option (List String) := none
  ifNoneMatch : Option (List String) := none
  ifUnmodifiedSince : String := ""
  ifModifiedSince : String := ""

/-- Go `etag == "" || etag[0] != '"'`: the strictness check on the origin
ETag in `checkConditions`. -/
def badEtag (etag : String) : Bool :=
  match etag.data with
  | [] => true
  | c :: _ => c != '"'

/-- Corresponds to `checkConditions(r, etag, lastModified, mutable)` in the
source: evaluates If-Match / If-Unmodified-Since then If-None-Match /
If-Modified-Since; 0 means proceed. `parseTime` stands for `http.ParseTime`
(`none` = parse error), and `Int` values stand for times with `<` as
`Time.Before`. -/
def checkConditions (parseTime : String → Option Int) (r : CondRequest)
    (etag lastModified : String) (mutable : Bool) : Nat :=
  match parseTime lastModified with
  | none => 500
  | some modified =>
    if badEtag etag then 500
    else
      match (match r.ifMatch with
             | some matchers =>
               if matchers.any (fun m => m == "*" || (goContains m etag && !mutable)) then
                 (none : Option Nat)
               else some 412
             | none =>
               match parseTime r.ifUnmodifiedSince with
               | some since => if modified > since ∨ mutable then some 412 else none
               | none => none) with
      | some code => code
      | none =>
        match r.ifNoneMatch with
        | some matchers =>
          if matchers.any (fun m => m == "*" || goContains m etag) then 304 else 0
        | none =>
          match parseTime r.ifModifiedSince with
          | some since => if ¬ modified > since then 304 else 0
          | none => 0

/-- The cleanUrls suffix-stripping pass of getCleanURL: strip a trailing
mainPageSuffix, then a trailing ".html". -/
def cleanStep (cleanUrls : Bool) (mainPageSuffix path : String) : String :=
  if cleanUrls then goTrimSuffix (goTrimSuffix path mainPageSuffix) ".html" else path

/-- The trailing-slash pass of getCleanURL: when the flag is configured,
trim all trailing slashes, and append exactly one if it is force-on. -/
def slashStep (trailingSlash : Option Bool) (path : String) : String :=
  match trailingSlash with
  | none => path
  | some force => if force then trimRightSlash path ++ "/" else trimRightSlash path

/-- Corresponds to HandlerContext.getCleanURL: the canonical redirect
location for the request path, or "" when the path is already canonical. -/
def getCleanURL (cleanUrls : Bool) (trailingSlash : Option Bool)
    (mainPageSuffix path : String) : String :=
  if slashStep trailingSlash (cleanStep cleanUrls mainPageSuffix path) ≠ path then
    slashStep trailingSlash (cleanStep cleanUrls mainPageSuffix path)
  else ""

/-- Corresponds to WebsiteConfiguration: MainPageSuffix and NotFoundPage,
stored without a leading slash. -/
structure WebsiteConfiguration where
  mainPageSuffix : String
  notFoundPage : String
deriving DecidableEq

/-- Response headers modelled as an association list from canonical header
names to value lists (Go http.Header). -/
abbrev Headers := List (String × List String)

/-- Setting a header key replaces any previous values (Go Header.Set and
direct map assignment). -/
def hset (h : Headers) (k : String) (v : List String) : Headers :=
  (k, v) :: h.filter (fun kv => kv.1 != k)

/-- Modelled from the spec: the per-bucket FirebaseConfiguration value (its
declaration is outside the given source). The spec specifies a rules engine
with pure operations processRedirects, processRewrites, processHeaders plus
the flag cleanUrls and the three-state trailingSlash; the source consumes
exactly these operations, so they are modelled as opaque function fields. -/
structure FirebaseConfiguration where
  cleanUrls : Bool
  trailingSlash : Option Bool
  processRedirects : String → Nat × String
  processRewrites : String → String
  processHeaders : String → Headers → Headers

/-- The origin response headers the program reads. -/
structure OriginHeaders where
  etag : String := ""
  lastModified : String := ""
  cacheControl : List String := []
  contentType : List String := []
  contentLanguage : List String := []
  contentDisposition : List String := []
  storedContentEncoding : String := ""
  storedContentLength : String := ""
deriving DecidableEq

/-- An origin HTTP response: status code, status text (Go res.Status — the
empty string on responses the program synthesizes itself) and headers. -/
structure Response where
  status : Nat
  statusText : String := ""
  headers : OriginHeaders := {}
deriving DecidableEq

/-- Outcome of an origin HEAD call: transport error or a response. -/
inductive HeadResult where
  | err
  | ok (res : Response)

/-- Outcome of an origin GET call: transport error or a response with a
body. -/
inductive GetResult where
  | err
  | ok (res : Response) (body : String)

/-- Corresponds to HandlerContext.getRewriteMetadata: probe a rewrite
candidate when it is a plausible object path different from the current
working object. Returns the response to propagate (if any), the new
working object, and the probed paths. A 500 response is synthesized on
transport error with the working object unchanged; the candidate is
committed only on an actual non-404 response. -/
def getRewriteMetadata (head : String → HeadResult) (object rewrite : String) :
    Option Response × String × List String :=
  if 1 < rewrite.length ∧ leadingSlash rewrite = true ∧ rewrite ≠ object then
    match head rewrite with
    | .err => (some { status := 500 }, object, [rewrite])
    | .ok res =>
      if res.status ≠ 404 then (some res, rewrite, [rewrite])
      else (none, object, [rewrite])
  else (none, object, [])

/-- The working object after getMetadata's initial main-page collapse
(`if len(ctx.object) <= 1 { ctx.object = mainPageSuffix }`). -/
def collapsedObject (website : WebsiteConfiguration) (object0 : String) : String :=
  if object0.length ≤ 1 then "/" ++ website.mainPageSuffix else object0

/-- The working object just before the primary probe: trailing slashes are
trimmed when trailingSlash is configured. -/
def trimmedObject (website : WebsiteConfiguration) (fb : FirebaseConfiguration)
    (object0 : String) : String :=
  if (fb.trailingSlash).isSome then trimRightSlash (collapsedObject website object0)
  else collapsedObject website object0

/-- Result of the object resolver: the origin response to act on, the final
working object, and the object paths probed with HEAD, in order. -/
structure MetaResult where
  response : Response
  object : String
  heads : List String
deriving DecidableEq

/-- Corresponds to HandlerContext.getMetadata: collapse the working object
to the main page when short, short-circuit when it is still short or names
the not-found page, trim trailing slashes when trailingSlash is
configured, issue the primary HEAD, and on a 404 (or a trailing-slash
object with a zero stored length) try the up-to-three rewrite candidates
in order, accepting the first that commits. -/
def getMetadata (head : String → HeadResult) (website : WebsiteConfiguration)
    (fb : FirebaseConfiguration) (urlPath object0 : String) : MetaResult :=
  if (collapsedObject website object0).length ≤ 1 ∨
      collapsedObject website object0 = "/" ++ website.notFoundPage then
    match getRewriteMetadata head (collapsedObject website object0)
        (fb.processRewrites urlPath) with
    | (some res, obj, hs) => ⟨res, obj, hs⟩
    | (none, obj, hs) => ⟨{ status := 404 }, obj, hs⟩
  else
    match head (trimmedObject website fb object0) with
    | .err => ⟨{ status := 500 }, trimmedObject website fb object0,
        [trimmedObject website fb object0]⟩
    | .ok res =>
      if res.status = 404 ∨
          (goHasSuffix (trimmedObject website fb object0) "/" ∧
            res.headers.storedContentLength = "0") then
        match getRewriteMetadata head (trimmedObject website fb object0)
            (trimRightSlash (trimmedObject website fb object0) ++
              ("/" ++ website.mainPageSuffix)) with
        | (some r, obj, hs) => ⟨r, obj, trimmedObject website fb object0 :: hs⟩
        | (none, obj1, hs1) =>
          match (if fb.cleanUrls then
                   getRewriteMetadata head obj1 (trimRightSlash obj1 ++ ".html")
                 else (none, obj1, [])) with
          | (some r, obj, hs2) => ⟨r, obj, trimmedObject website fb object0 :: (hs1 ++ hs2)⟩
          | (none, obj2, hs2) =>
            match getRewriteMetadata head obj2 (fb.processRewrites urlPath) with
            | (some r, obj, hs3) =>
              ⟨r, obj, trimmedObject website fb object0 :: (hs1 ++ hs2 ++ hs3)⟩
            | (none, obj3, hs3) =>
              ⟨res, obj3, trimmedObject website fb object0 :: (hs1 ++ hs2 ++ hs3)⟩
      else ⟨res, trimmedObject website fb object0, [trimmedObject website fb object0]⟩

/-- Hex digit value (net/url unhex). -/
def unhex (c : Char) : Option Nat :=
  if '0' ≤ c ∧ c ≤ '9' then some (c.toNat - '0'.toNat)
  else if 'a' ≤ c ∧ c ≤ 'f' then some (c.toNat - 'a'.toNat + 10)
  else if 'A' ≤ c ∧ c ≤ 'F' then some (c.toNat - 'A'.toNat + 10)
  else none

/-- Models net/url.QueryUnescape on byte sequences: percent-decoding with
'+' as space; `none` on a malformed escape. -/
def queryUnescapeList : List Char → Option (List Char)
  | [] => some []
  | '%' :: a :: b :: rest =>
    match unhex a, unhex b with
    | some ha, some hb => (queryUnescapeList rest).map (fun r => Char.ofNat (16 * ha + hb) :: r)
    | _, _ => none
  | '%' :: _ => none
  | '+' :: rest => (queryUnescapeList rest).map (fun r => ' ' :: r)
  | c :: rest => (queryUnescapeList rest).map (fun r => c :: r)

/-- Go strings.Cut at the first occurrence of `c`: (before, after), with
after = [] when `c` does not occur. -/
def cutChar (c : Char) : List Char → List Char × List Char
  | [] => ([], [])
  | x :: xs =>
    if x == c then ([], xs)
    else
      let r := cutChar c xs
      (x :: r.1, r.2)

/-- Split on ampersands, as net/url.ParseQuery's Cut loop does. -/
def splitAmpAux : List Char → List Char → List (List Char)
  | [], acc => [acc.reverse]
  | c :: rest, acc =>
    if c == '&' then acc.reverse :: splitAmpAux rest []
    else splitAmpAux rest (c :: acc)

/-- url.Values, with its keys kept in first-insertion order. -/
abbrev Values := List (String × List String)

/-- Go `m[key] = append(m[key], value)` on the Values model. -/
def addValue (m : Values) (k v : String) : Values :=
  if m.any (fun kv => kv.1 == k) then
    m.map (fun kv => if kv.1 == k then (kv.1, kv.2 ++ [v]) else kv)
  else m ++ [(k, [v])]

/-- One component of net/url.ParseQuery: reject semicolons, skip empties,
cut at '=', unescape both sides (errors skip the component). -/
def parseQueryComp (m : Values) (seg : List Char) : Values :=
  if seg.contains ';' then m
  else if seg.isEmpty then m
  else
    match queryUnescapeList (cutChar '=' seg).1, queryUnescapeList (cutChar '=' seg).2 with
    | some k, some v => addValue m ⟨k⟩ ⟨v⟩
    | _, _ => m

/-- Models net/url.ParseQuery as used by Request.URL.Query() (errors are
dropped, successfully parsed components are kept). -/
def goParseQuery (q : String) : Values :=
  (splitAmpAux q.data []).foldl parseQueryComp []

/-- The characters net/url.QueryEscape leaves unescaped. -/
def isUnreservedQueryChar (c : Char) : Bool :=
  decide (('a' ≤ c ∧ c ≤ 'z') ∨ ('A' ≤ c ∧ c ≤ 'Z') ∨ ('0' ≤ c ∧ c ≤ '9') ∨
    c = '-' ∨ c = '_' ∨ c = '.' ∨ c = '~')

/-- Upper-case hex digit. -/
def upperHexDigit (n : Nat) : Char :=
  if n < 10 then Char.ofNat ('0'.toNat + n) else Char.ofNat ('A'.toNat + n - 10)

/-- Models net/url.QueryEscape on byte sequences: spaces become '+', other
reserved bytes become %XX. -/
def queryEscapeList : List Char → List Char
  | [] => []
  | c :: rest =>
    (if isUnreservedQueryChar c then [c]
     else if c = ' ' then ['+']
     else ['%', upperHexDigit (c.toNat / 16 % 16), upperHexDigit (c.toNat % 16)]) ++
      queryEscapeList rest

def queryEscape (s : String) : String :=
  ⟨queryEscapeList s.data⟩

/-- Byte-lexicographic string order (Go sort.Strings). -/
def strLeb : List Char → List Char → Bool
  | [], _ => true
  | _ :: _, [] => false
  | a :: as, b :: bs => if a = b then strLeb as bs else decide (a < b)

def insertSorted (x : String) : List String → List String
  | [] => [x]
  | y :: ys => if strLeb x.data y.data then x :: y :: ys else y :: insertSorted x ys

def sortStrings (l : List String) : List String :=
  l.foldr insertSorted []

def lookupValues (m : Values) (k : String) : List String :=
  match m.find? (fun kv => kv.1 == k) with
  | some kv => kv.2
  | none => []

def joinAmp : List String → String
  | [] => ""
  | [x] => x
  | x :: y :: xs => x ++ "&" ++ joinAmp (y :: xs)

/-- Models net/url.Values.Encode: keys sorted, each key=value pair escaped
with QueryEscape, joined with ampersands. -/
def encodeValues (m : Values) : String :=
  joinAmp
    (((sortStrings (m.map (fun kv => kv.1))).map
        (fun k => (lookupValues m k).map (fun v => queryEscape k ++ "=" ++ queryEscape v))).flatten)

/-- Corresponds to HandlerContext.getQuery: empty when the parsed query has
no keys, otherwise "?" followed by the re-encoded query. -/
def getQuery (rawQuery : String) : String :=
  if (goParseQuery rawQuery).length = 0 then ""
  else "?" ++ encodeValues (goParseQuery rawQuery)

/-- The response-writer state: headers set so far, an explicitly written
status (WriteHeader), and the copied body. -/
structure Writer where
  headers : Headers := []
  wroteStatus : Option Nat := none
  body : Option String := none
deriving DecidableEq

/-- Modelled from the spec: HttpResult {status, location?, message?} (its
declaration is outside the given source); the zero value means the
response has already been written by the dispatcher. -/
structure HttpResult where
  status : Nat := 0
  location : String := ""
  message : String := ""
deriving DecidableEq

/-- Corresponds to setHeaders: the security-header baseline. -/
def setHeaders (h : Headers) : Headers :=
  hset (hset (hset (hset (hset (hset h
    "Referrer-Policy" ["strict-origin-when-cross-origin"])
    "Strict-Transport-Security" ["max-age=86400"])
    "X-Content-Type-Options" ["nosniff"])
    "X-Download-Options" ["noopen"])
    "X-Frame-Options" ["SAMEORIGIN"])
    "X-XSS-Protection" ["1; mode=block"]

/-- Corresponds to checkMethod: only GET and HEAD proceed; anything else
gets 405 with an Allow header. -/
def checkMethod (method : String) (w : Writer) : Nat × Writer :=
  if method ≠ "GET" ∧ method ≠ "HEAD" then
    (405, { w with headers := hset w.headers "Allow" ["GET, HEAD"] })
  else (0, w)

/-- Corresponds to the object assignment in makeContext: the raw escaped
path, with "/" pre-rewritten to "/index.html". -/
def initialObject (escapedPath : String) : String :=
  if escapedPath = "/" then "/index.html" else escapedPath

/-- The request fields the handler reads. -/
structure RequestModel where
  method : String
  bucket : String
  urlPath : String
  escapedPath : String
  rawQuery : String
  cond : CondRequest := {}
  rangeHeader : String := ""
  ifRange : String := ""

/-- The per-request oracles: origin calls, the blobstore key lookup,
http.ParseTime, the websites-cache entry for the bucket, the outcome of
the websiteConfig fetch (none = transport, non-200 or XML failure), and
the formatted current time. -/
structure Oracles where
  head : String → HeadResult
  get : String → GetResult
  blobKey : String → Option String
  parseTime : String → Option Int
  cachedWebsite : Option WebsiteConfiguration := none
  fetchedWebsite : Option WebsiteConfiguration := none
  now : String := ""

/-- Corresponds to initWebsite's effect: the cached entry when present,
otherwise the fetched websiteConfig; none makes the handler return 500. -/
def effectiveWebsite (o : Oracles) : Option WebsiteConfiguration :=
  match o.cachedWebsite with
  | some cfg => some cfg
  | none => o.fetchedWebsite

/-- Corresponds to HandlerContext.sendBlob: look up the blob key for
/gs/{bucket}{object}; forward the Range header through X-AppEngine-
BlobRange subject to If-Range validation and suppression under a mutable
origin; set X-AppEngine-BlobKey. -/
def sendBlob (blobKey : String → Option String)
    (bucket object rangeHeader ifRange etag modified : String)
    (mutable : Bool) (w : Writer) : HttpResult × Writer :=
  match blobKey ("/gs/" ++ bucket ++ object) with
  | none => ({ status := 500 }, w)
  | some key =>
    let rangeVal :=
      if mutable then ""
      else if ifRange.length ≠ 0 ∧ ifRange ≠ etag ∧ ifRange ≠ modified then ""
      else rangeHeader
    let w1 :=
      if 0 < rangeHeader.length then
        { w with headers := hset w.headers "X-AppEngine-BlobRange" [rangeVal] }
      else w
    ({}, { w1 with headers := hset w1.headers "X-AppEngine-BlobKey" [key] })

/-- Corresponds to HandlerContext.sendBlobBody: GET the object and copy the
body; transport errors and non-200 statuses yield 500. -/
def sendBlobBody (get : String → GetResult) (object : String) (w : Writer) :
    HttpResult × Writer :=
  match get object with
  | .err => ({ status := 500 }, w)
  | .ok res body =>
    if res.status ≠ 200 then ({ status := 500 }, w)
    else ({}, { w with body := some body })

/-- Corresponds to HandlerContext.sendNotFound: 404 with no body when no
not-found page is configured; otherwise GET the page (transport error or
non-200 yields 500) and write 404 with the page body, copying
Content-Type, Content-Language and Content-Disposition and applying the
security baseline and processHeaders. The third component records the GET
paths issued. -/
def sendNotFound (get : String → GetResult) (website : WebsiteConfiguration)
    (fb : FirebaseConfiguration) (w : Writer) : HttpResult × Writer × List String :=
  if ("/" ++ website.notFoundPage).length ≤ 1 then ({ status := 404 }, w, [])
  else
    match get ("/" ++ website.notFoundPage) with
    | .err => ({ status := 500 }, w, ["/" ++ website.notFoundPage])
    | .ok res body =>
      if res.status ≠ 200 then ({ status := 500 }, w, ["/" ++ website.notFoundPage])
      else
        ({}, { headers := fb.processHeaders ("/" ++ website.notFoundPage)
                 (setHeaders (hset (hset (hset w.headers
                   "Content-Type" res.headers.contentType)
                   "Content-Language" res.headers.contentLanguage)
                   "Content-Disposition" res.headers.contentDisposition)),
               wroteStatus := some 404, body := some body },
         ["/" ++ website.notFoundPage])

/-- Corresponds to StaticWebsiteHandler: method gate, redirect rule,
website-config initialization, clean-URL redirect, object resolution,
conditional evaluation (mutable = true), then dispatch through the blob
handle or the streamed body. -/
def staticWebsiteHandler (o : Oracles) (fb : FirebaseConfiguration) (req : RequestModel) :
    HttpResult × Writer :=
  match checkMethod req.method {} with
  | (mcode, w) =>
    if mcode ≠ 0 then ({ status := mcode }, w)
    else
      match fb.processRedirects req.urlPath with
      | (rcode, location) =>
        if rcode ≠ 0 then
          ({ status := rcode, location := location ++ getQuery req.rawQuery }, w)
        else
          match effectiveWebsite o with
          | none => ({ status := 500 }, w)
          | some website =>
            if getCleanURL fb.cleanUrls fb.trailingSlash website.mainPageSuffix
                req.urlPath ≠ "" then
              ({ status := 301,
                 location := getCleanURL fb.cleanUrls fb.trailingSlash
                   website.mainPageSuffix req.urlPath ++ getQuery req.rawQuery }, w)
            else
              match getMetadata o.head website fb req.urlPath
                  (initialObject req.escapedPath) with
              | mr =>
                if mr.response.status = 404 then
                  ((sendNotFound o.get website fb w).1, (sendNotFound o.get website fb w).2.1)
                else if mr.response.status ≠ 200 then
                  ({ status := mr.response.status, message := mr.response.statusText }, w)
                else
                  match checkConditions o.parseTime req.cond mr.response.headers.etag
                      mr.response.headers.lastModified true with
                  | ccode =>
                    if ccode = 304 then
                      let hcc := hset w.headers "Cache-Control" mr.response.headers.cacheControl
                      ({ status := ccode }, { w with headers := hcc })
                    else if ccode ≠ 0 then ({ status := ccode }, w)
                    else
                      let h1 := hset (hset (hset (hset (hset w.headers
                        "Cache-Control" mr.response.headers.cacheControl)
                        "Content-Type" mr.response.headers.contentType)
                        "Content-Language" mr.response.headers.contentLanguage)
                        "Content-Disposition" mr.response.headers.contentDisposition)
                        "Last-Modified" [o.now]
                      let w2 : Writer :=
                        { w with headers := fb.processHeaders req.urlPath (setHeaders h1) }
                      if mr.response.headers.storedContentEncoding = "identity" then
                        sendBlob o.blobKey req.bucket mr.object req.rangeHeader
                          req.ifRange mr.response.headers.etag
                          mr.response.headers.lastModified true w2
                      else
                        sendBlobBody o.get mr.object w2

/-- A FirebaseConfiguration with no rules: flags off, no redirects or
rewrites, headers untouched (a bucket absent from firebase.json). -/
def fbNoRules : FirebaseConfiguration :=
  { cleanUrls := false, trailingSlash := none,
    processRedirects := fun _ => (0, ""), processRewrites := fun _ => "",
    processHeaders := fun _ h => h }

/-- fbNoRules with trailingSlash force-off, for concrete instances. -/
def fbSlashOff : FirebaseConfiguration :=
  { fbNoRules with trailingSlash := some false }

/-- An origin whose every HEAD returns a bare 200 response. -/
def headAll200 : String → HeadResult := fun _ => .ok { status := 200 }

/-! ## Theorems -/

/-- Whatever the If-None-Match / If-Modified-Since phase yields, it is 304
or 0, never 412. -/
theorem secondPhase_ne_412 (parseTime : String → Option Int) (r : CondRequest)
    (etag : String) (modified : Int) :
    (match r.ifNoneMatch with
      | some matchers =>
        if matchers.any (fun m => m == "*" || goContains m etag) then 304 else 0
      | none =>
        match parseTime r.ifModifiedSince with
        | some since => if ¬ modified > since then 304 else 0
        | none => 0) ≠ 412 := by
  split
  · split <;> decide
  · split
    · split <;> decide
    · decide

/-- C1: with If-Match present and a mutable origin, the evaluator (on valid
etag / Last-Modified inputs) returns 412 exactly when no If-Match value is
the literal `*`; non-`*` matchers never satisfy If-Match, and when some
value is `*` the If-Match check passes (the result is not 412). -/
theorem c1_ifMatch_mutable_star (parseTime : String → Option Int) (r : CondRequest)
    (etag lastModified : String) (matchers : List String)
    (hm : r.ifMatch = some matchers)
    (he : badEtag etag = false)
    (m : Int) (hp : parseTime lastModified = some m) :
    checkConditions parseTime r etag lastModified true = 412 ↔
      ¬ ∃ v ∈ matchers, v = "*" := by
  unfold checkConditions
  rw [hp]
  simp only [he, Bool.false_eq_true, if_false, hm]
  have hany : (matchers.any (fun v => v == "*" || (goContains v etag && !true)))
      = matchers.any (fun v => v == "*") := by
    simp
  rw [hany]
  by_cases hstar : ∃ v ∈ matchers, v = "*"
  · have ha : matchers.any (fun v => v == "*") = true := by
      rcases hstar with ⟨v, hv, hveq⟩
      exact List.any_eq_true.mpr ⟨v, hv, by simp [hveq]⟩
    rw [ha, if_pos rfl]
    constructor
    · intro h412
      exact absurd h412 (secondPhase_ne_412 parseTime r etag m)
    · intro h
      exact absurd hstar h
  · have ha : matchers.any (fun v => v == "*") = false := by
      simp only [List.any_eq_false]
      intro v hv h
      exact hstar ⟨v, hv, by simpa using h⟩
    rw [ha, if_neg (by simp)]
    exact ⟨fun _ => hstar, fun _ => rfl⟩

/-- Concrete instance of the C1 theorem: a single non-`*` matcher under a
mutable origin yields 412. -/
theorem c1_witness :
    checkConditions (fun _ => some 0) { ifMatch := some ["W/xyz"] } "\"abc\"" "t" true = 412 := by
  have h := c1_ifMatch_mutable_star (fun _ => some 0) { ifMatch := some ["W/xyz"] }
    "\"abc\"" "t" ["W/xyz"] rfl (by decide) 0 rfl
  exact h.mpr (by decide)

/-- C5: if the etag is empty, or does not begin with a double quote, or
Last-Modified does not parse, the evaluator returns 500 regardless of which
conditional headers are present. -/
theorem c5_strict_inputs (parseTime : String → Option Int) (r : CondRequest)
    (etag lastModified : String) (mutable : Bool)
    (h : etag = "" ∨ etag.data.head? ≠ some '"' ∨ parseTime lastModified = none) :
    checkConditions parseTime r etag lastModified mutable = 500 := by
  have hbad : parseTime lastModified = none ∨ badEtag etag = true := by
    rcases h with h | h | h
    · right
      subst h
      rfl
    · right
      unfold badEtag
      rcases hd : etag.data with _ | ⟨c, t⟩
      · rfl
      · rw [hd] at h
        simp only [List.head?] at h
        simp only [bne_iff_ne, ne_eq]
        intro hc
        exact h (by rw [hc])
    · left
      exact h
  unfold checkConditions
  rcases hbad with h | h
  · rw [h]
  · rcases hp : parseTime lastModified with _ | m
    · rfl
    · rw [h]
      simp

/-- Concrete instance of the C5 theorem: an empty etag yields 500 even with
no conditional headers at all. -/
theorem c5_witness :
    checkConditions (fun _ => some 0) {} "" "t" false = 500 :=
  c5_strict_inputs (fun _ => some 0) {} "" "t" false (Or.inl rfl)

/-- C6: conditional precedence. When If-Match is present the evaluator's
result does not depend on If-Unmodified-Since, and when If-None-Match is
present the result does not depend on If-Modified-Since. -/
theorem c6_conditional_precedence (parseTime : String → Option Int) (r : CondRequest)
    (ms ns : List String) (x y : String) (etag lastModified : String) (mutable : Bool) :
    (checkConditions parseTime { r with ifMatch := some ms, ifUnmodifiedSince := x }
        etag lastModified mutable =
      checkConditions parseTime { r with ifMatch := some ms, ifUnmodifiedSince := y }
        etag lastModified mutable) ∧
    (checkConditions parseTime { r with ifNoneMatch := some ns, ifModifiedSince := x }
        etag lastModified mutable =
      checkConditions parseTime { r with ifNoneMatch := some ns, ifModifiedSince := y }
        etag lastModified mutable) := by
  exact ⟨rfl, rfl⟩

theorem trimSlashList_eq_rdropWhile (l : List Char) :
    trimSlashList l = l.rdropWhile (fun c => c == '/') := rfl

theorem trimRightSlash_append_slash (s : String) :
    trimRightSlash (s ++ "/") = trimRightSlash s := by
  unfold trimRightSlash
  congr 1
  rw [trimSlashList_eq_rdropWhile, trimSlashList_eq_rdropWhile]
  have hd : (s ++ "/").data = s.data ++ ['/'] := by
    rw [String.data_append]
  rw [hd]
  exact List.rdropWhile_concat_pos _ _ '/' (by decide)

theorem trimRightSlash_idem (s : String) :
    trimRightSlash (trimRightSlash s) = trimRightSlash s := by
  unfold trimRightSlash
  congr 1
  rw [trimSlashList_eq_rdropWhile, trimSlashList_eq_rdropWhile]
  exact List.rdropWhile_idempotent _ _

theorem slashStep_idem (ts : Option Bool) (p : String) :
    slashStep ts (slashStep ts p) = slashStep ts p := by
  rcases ts with _ | force
  · rfl
  · rcases force
    · simp only [slashStep, Bool.false_eq_true, if_false]
      exact trimRightSlash_idem p
    · simp only [slashStep, if_true]
      rw [trimRightSlash_append_slash, trimRightSlash_idem]

/-- C4 fails on the code: with cleanUrls set, the path "/a.html.html"
canonicalizes to "/a.html", and feeding that canonical form back produces
the further redirect "/a" — the canonicalization is not a fixed point after
one redirect. -/
theorem c4_counterexample :
    getCleanURL true none "" "/a.html.html" = "/a.html" ∧
    getCleanURL true none "" "/a.html" = "/a" ∧ ("/a" : String) ≠ "" :=
  ⟨by decide, by decide, by decide⟩

/-- C4 amended: (a) if the request path is already canonical (the
canonicalization maps it to itself) no redirect is emitted; (b) an emitted
canonical location is a fixed point provided the cleanUrls stripping pass
no longer changes it — in particular always when cleanUrls is unset, so
the trailing-slash canonicalization alone is idempotent; a path with
stacked suffixes (see the counterexample) violates (b)'s proviso. -/
theorem c4_amended_idempotence (cleanUrls : Bool) (ts : Option Bool) (mps path p : String) :
    (slashStep ts (cleanStep cleanUrls mps path) = path →
       getCleanURL cleanUrls ts mps path = "") ∧
    (getCleanURL cleanUrls ts mps path = p → p ≠ "" →
       cleanStep cleanUrls mps p = p → getCleanURL cleanUrls ts mps p = "") := by
  constructor
  · intro h
    unfold getCleanURL
    simp [h]
  · intro h hne hclean
    have hp : p = slashStep ts (cleanStep cleanUrls mps path) := by
      unfold getCleanURL at h
      by_cases hc : slashStep ts (cleanStep cleanUrls mps path) ≠ path
      · rw [if_pos hc] at h
        exact h.symm
      · rw [if_neg hc] at h
        exact absurd h.symm hne
    unfold getCleanURL
    rw [hclean, hp, slashStep_idem]
    simp

/-- Concrete instance of the amended C4 theorem: the canonical location
"/x/" emitted for "/x/index.html" produces no further redirect. -/
theorem c4_witness :
    getCleanURL true none "index.html" "/x/" = "" :=
  (c4_amended_idempotence true none "index.html" "/x/index.html" "/x/").2
    (by decide) (by decide) (by decide)

theorem length_pos_of_ne_empty (s : String) (h : s ≠ "") : 1 ≤ s.length := by
  rcases s with ⟨data⟩
  rcases data with _ | ⟨c, t⟩
  · exact absurd rfl h
  · simp [String.length]

/-- Complete case analysis of a rewrite probe: the guard fails and nothing
happens, or the guard holds and the probe errs (synthesized 500, object
unchanged), commits (non-404 response), or misses (404, object unchanged). -/
theorem getRewriteMetadata_cases (head : String → HeadResult) (object rewrite : String) :
    (¬ (1 < rewrite.length ∧ leadingSlash rewrite = true ∧ rewrite ≠ object) ∧
       getRewriteMetadata head object rewrite = (none, object, [])) ∨
    ((1 < rewrite.length ∧ leadingSlash rewrite = true ∧ rewrite ≠ object) ∧
      ((head rewrite = .err ∧
         getRewriteMetadata head object rewrite = (some { status := 500 }, object, [rewrite])) ∨
       (∃ res, head rewrite = .ok res ∧ res.status ≠ 404 ∧
         getRewriteMetadata head object rewrite = (some res, rewrite, [rewrite])) ∨
       (∃ res, head rewrite = .ok res ∧ res.status = 404 ∧
         getRewriteMetadata head object rewrite = (none, object, [rewrite])))) := by
  unfold getRewriteMetadata
  by_cases hg : 1 < rewrite.length ∧ leadingSlash rewrite = true ∧ rewrite ≠ object
  · right
    refine ⟨hg, ?_⟩
    rw [if_pos hg]
    rcases hh : head rewrite with _ | res
    · exact Or.inl ⟨rfl, rfl⟩
    · by_cases hst : res.status ≠ 404
      · refine Or.inr (Or.inl ⟨res, rfl, hst, ?_⟩)
        dsimp only
        rw [if_pos hst]
      · push_neg at hst
        refine Or.inr (Or.inr ⟨res, rfl, hst, ?_⟩)
        dsimp only
        rw [if_neg (by omega)]
  · left
    exact ⟨hg, by rw [if_neg hg]⟩

/-- A rewrite probe issues at most one HEAD. -/
theorem getRewriteMetadata_heads_le (head : String → HeadResult) (object rewrite : String) :
    (getRewriteMetadata head object rewrite).2.2.length ≤ 1 := by
  rcases getRewriteMetadata_cases head object rewrite with ⟨_, he⟩ | ⟨_, hcase⟩
  · rw [he]
    simp
  · rcases hcase with ⟨_, he⟩ | ⟨res, _, _, he⟩ | ⟨res, _, _, he⟩ <;> rw [he] <;> simp

/-- Every path a rewrite probe HEADs is the guarded candidate itself. -/
theorem getRewriteMetadata_heads_mem (head : String → HeadResult) (object rewrite p : String)
    (hp : p ∈ (getRewriteMetadata head object rewrite).2.2) :
    p = rewrite ∧ 1 < rewrite.length ∧ leadingSlash rewrite = true ∧ rewrite ≠ object := by
  rcases getRewriteMetadata_cases head object rewrite with ⟨_, he⟩ | ⟨hg, hcase⟩
  · rw [he] at hp
    simp at hp
  · have hpr : p = rewrite := by
      rcases hcase with ⟨_, he⟩ | ⟨res, _, _, he⟩ | ⟨res, _, _, he⟩ <;>
        (rw [he] at hp; simpa using hp)
    exact ⟨hpr, hg⟩

/-- A rewrite probe that propagates nothing leaves the working object
unchanged. -/
theorem getRewriteMetadata_none_object (head : String → HeadResult) (object rewrite : String)
    (obj : String) (hs : List String)
    (h : getRewriteMetadata head object rewrite = (none, obj, hs)) : obj = object := by
  rcases getRewriteMetadata_cases head object rewrite with ⟨_, he⟩ | ⟨_, hcase⟩
  · rw [he] at h
    simp at h
    exact h.1.symm
  · rcases hcase with ⟨_, he⟩ | ⟨res, _, _, he⟩ | ⟨res, _, _, he⟩ <;> rw [he] at h <;>
      simp at h
    exact h.1.symm

/-- A transport error on a guarded rewrite probe yields the synthesized 500
response with the working object unchanged. -/
theorem getRewriteMetadata_err (head : String → HeadResult) (object rewrite : String)
    (hg : 1 < rewrite.length ∧ leadingSlash rewrite = true ∧ rewrite ≠ object)
    (hh : head rewrite = .err) :
    getRewriteMetadata head object rewrite = (some { status := 500 }, object, [rewrite]) := by
  rcases getRewriteMetadata_cases head object rewrite with ⟨hg2, _⟩ | ⟨_, hcase⟩
  · exact absurd hg hg2
  · rcases hcase with ⟨_, he⟩ | ⟨res, hh2, _, _⟩ | ⟨res, hh2, _, _⟩
    · exact he
    · rw [hh] at hh2
      exact HeadResult.noConfusion hh2
    · rw [hh] at hh2
      exact HeadResult.noConfusion hh2

/-- The probe commits a new working object only on an actual non-404 origin
response, and then the committed object is the candidate and the response
is propagated. -/
theorem getRewriteMetadata_commit (head : String → HeadResult) (object rewrite : String)
    (r : Option Response) (obj : String) (hs : List String)
    (h : getRewriteMetadata head object rewrite = (r, obj, hs)) (hne : obj ≠ object) :
    ∃ res, head rewrite = .ok res ∧ res.status ≠ 404 ∧ r = some res ∧ obj = rewrite := by
  rcases getRewriteMetadata_cases head object rewrite with ⟨_, he⟩ | ⟨_, hcase⟩
  · rw [he] at h
    simp at h
    exact absurd h.2.1.symm hne
  · rcases hcase with ⟨_, he⟩ | ⟨res, hh2, hst, he⟩ | ⟨res, _, _, he⟩ <;> rw [he] at h <;>
      simp at h
    · exact absurd h.2.1.symm hne
    · exact ⟨res, hh2, hst, h.1.symm, h.2.1.symm⟩
    · exact absurd h.2.1.symm hne

/-- If a probed candidate suffered a transport error, the probe propagated
the synthesized 500 with the object unchanged. -/
theorem getRewriteMetadata_err_mem (head : String → HeadResult) (object rewrite p : String)
    (hp : p ∈ (getRewriteMetadata head object rewrite).2.2) (he : head p = .err) :
    getRewriteMetadata head object rewrite = (some { status := 500 }, object, [p]) := by
  have hmem := getRewriteMetadata_heads_mem head object rewrite p hp
  rcases hmem with ⟨rfl, h1, h2, h3⟩
  exact getRewriteMetadata_err head object p ⟨h1, h2, h3⟩ he

/-- C2: the object resolver issues at most four HEAD probes to the origin
per request (one primary plus up to three rewrite candidates). -/
theorem c2_resolver_probe_bound (head : String → HeadResult) (website : WebsiteConfiguration)
    (fb : FirebaseConfiguration) (urlPath object0 : String) :
    (getMetadata head website fb urlPath object0).heads.length ≤ 4 := by
  unfold getMetadata
  split
  · rcases hrw : getRewriteMetadata head (collapsedObject website object0)
        (fb.processRewrites urlPath) with ⟨r, obj, hs⟩
    have h1 := getRewriteMetadata_heads_le head (collapsedObject website object0)
      (fb.processRewrites urlPath)
    rw [hrw] at h1
    simp at h1
    rcases r with _ | res <;> dsimp only <;> simp <;> omega
  · rcases hh : head (trimmedObject website fb object0) with _ | res
    · simp
    · dsimp only
      split
      · rcases hrw1 : getRewriteMetadata head (trimmedObject website fb object0)
            (trimRightSlash (trimmedObject website fb object0) ++
              ("/" ++ website.mainPageSuffix)) with ⟨r1, obj1, hs1⟩
        have h1 := getRewriteMetadata_heads_le head (trimmedObject website fb object0)
          (trimRightSlash (trimmedObject website fb object0) ++ ("/" ++ website.mainPageSuffix))
        rw [hrw1] at h1
        simp at h1
        rcases r1 with _ | res1
        · dsimp only
          rcases hrw2 : (if fb.cleanUrls then
              getRewriteMetadata head obj1 (trimRightSlash obj1 ++ ".html")
            else (none, obj1, [])) with ⟨r2, obj2, hs2⟩
          have h2 : ((if fb.cleanUrls then
              getRewriteMetadata head obj1 (trimRightSlash obj1 ++ ".html")
            else (none, obj1, ([] : List String))).2.2).length ≤ 1 := by
            split
            · exact getRewriteMetadata_heads_le head obj1 (trimRightSlash obj1 ++ ".html")
            · simp
          rw [hrw2] at h2
          simp at h2
          rcases r2 with _ | res2
          · dsimp only
            rcases hrw3 : getRewriteMetadata head obj2 (fb.processRewrites urlPath)
                with ⟨r3, obj3, hs3⟩
            have h3 := getRewriteMetadata_heads_le head obj2 (fb.processRewrites urlPath)
            rw [hrw3] at h3
            simp at h3
            rcases r3 with _ | res3 <;> dsimp only <;> simp <;> omega
          · dsimp only
            simp
            omega
        · dsimp only
          simp
          omega
      · simp

/-- C3 fails on the code: a request whose escaped path is "/" is
pre-rewritten to the literal "/index.html" in makeContext, so on a bucket
whose mainPageSuffix is "main.htm" the resolver resolves "/index.html",
not "/" + mainPageSuffix. -/
theorem c3_counterexample :
    (getMetadata headAll200 ⟨"main.htm", ""⟩ fbNoRules "/" (initialObject "/")).object =
      "/index.html" ∧ ("/index.html" : String) ≠ "/" ++ "main.htm" :=
  ⟨by decide, by decide⟩

/-- C3 amended: the escaped path "/" is pre-rewritten to the literal
"/index.html" irrespective of the website configuration (so the claim holds
only when mainPageSuffix = "index.html"); the configured main page
"/" + mainPageSuffix becomes the working object when the initial working
object is empty (or "/"), e.g. for an empty escaped path. -/
theorem c3_amended_main_page (head : String → HeadResult) (website : WebsiteConfiguration)
    (fb : FirebaseConfiguration) (urlPath : String) (res : Response) :
    (initialObject "/" = "/index.html") ∧
    (website.mainPageSuffix ≠ "" →
       ("/" ++ website.mainPageSuffix : String) ≠ "/" ++ website.notFoundPage →
       fb.trailingSlash = none →
       head ("/" ++ website.mainPageSuffix) = .ok res → res.status ≠ 404 →
       goHasSuffix ("/" ++ website.mainPageSuffix) "/" = false →
       (getMetadata head website fb urlPath (initialObject "")).object =
         "/" ++ website.mainPageSuffix) ∧
    (head "/index.html" = .ok res → res.status ≠ 404 →
       ("/index.html" : String) ≠ "/" ++ website.notFoundPage →
       (getMetadata head website fb urlPath (initialObject "/")).object = "/index.html") := by
  refine ⟨rfl, ?_, ?_⟩
  · intro hmps hnfp hts hh h404 hsuf
    have hio : initialObject "" = "" := rfl
    have hco : collapsedObject website "" = "/" ++ website.mainPageSuffix := by
      unfold collapsedObject
      rw [if_pos (by decide)]
    have hlenmps : 1 ≤ website.mainPageSuffix.length := length_pos_of_ne_empty _ hmps
    have hlen : ¬ ((collapsedObject website "").length ≤ 1 ∨
        collapsedObject website "" = "/" ++ website.notFoundPage) := by
      rw [hco]
      push_neg
      constructor
      · rw [String.length_append]
        have h1 : ("/" : String).length = 1 := rfl
        omega
      · exact hnfp
    have htr : trimmedObject website fb "" = "/" ++ website.mainPageSuffix := by
      unfold trimmedObject
      rw [hts]
      simp [hco]
    rw [hio]
    unfold getMetadata
    rw [if_neg hlen, htr, hh]
    have hcond : ¬ (res.status = 404 ∨
        (goHasSuffix ("/" ++ website.mainPageSuffix) "/" = true ∧
          res.headers.storedContentLength = "0")) := by
      push_neg
      refine ⟨h404, fun hb => absurd hb (by rw [hsuf]; simp)⟩
    simp only [if_neg hcond]
  · intro hh h404 hnfp
    have hio : initialObject "/" = "/index.html" := rfl
    have hco : collapsedObject website "/index.html" = "/index.html" := by
      unfold collapsedObject
      rw [if_neg (by decide)]
    have hlen : ¬ ((collapsedObject website "/index.html").length ≤ 1 ∨
        collapsedObject website "/index.html" = "/" ++ website.notFoundPage) := by
      rw [hco]
      push_neg
      exact ⟨by decide, hnfp⟩
    have htr : trimmedObject website fb "/index.html" = "/index.html" := by
      unfold trimmedObject
      rw [hco]
      split
      · decide
      · rfl
    rw [hio]
    unfold getMetadata
    rw [if_neg hlen, htr, hh]
    have hcond : ¬ (res.status = 404 ∨
        (goHasSuffix "/index.html" "/" = true ∧
          res.headers.storedContentLength = "0")) := by
      push_neg
      exact ⟨h404, fun hb => absurd hb (by decide)⟩
    simp only [if_neg hcond]

/-- Concrete instance of the amended C3 theorem: an empty escaped path on a
bucket with mainPageSuffix "main.htm" resolves the configured main page. -/
theorem c3_witness :
    (getMetadata headAll200 ⟨"main.htm", "404.html"⟩ fbNoRules "" (initialObject "")).object =
      "/" ++ ("main.htm" : String) :=
  (c3_amended_main_page headAll200 ⟨"main.htm", "404.html"⟩ fbNoRules "" { status := 200 }).2.1
    (by decide) (by decide) rfl rfl (by decide) (by decide)

theorem getLast?_cons_concat {α : Type} (a p : α) (l : List α) :
    (a :: (l ++ [p])).getLast? = some p := by
  induction l generalizing a with
  | nil => rfl
  | cons b t ih =>
    rw [List.cons_append, List.getLast?_cons_cons]
    exact ih b

/-- The trailing-slash trim never leaves a trailing slash. -/
theorem trimSlashList_no_slash_end (l q : List Char) :
    trimSlashList l ≠ q ++ ['/'] := by
  intro h
  have hidem : trimSlashList (trimSlashList l) = trimSlashList l := by
    rw [trimSlashList_eq_rdropWhile, trimSlashList_eq_rdropWhile]
    exact List.rdropWhile_idempotent _ _
  rw [h] at hidem
  have hq : trimSlashList (q ++ ['/']) = trimSlashList q := by
    rw [trimSlashList_eq_rdropWhile, trimSlashList_eq_rdropWhile]
    exact List.rdropWhile_concat_pos _ _ '/' (by decide)
  rw [hq] at hidem
  have hlen : (trimSlashList q).length ≤ q.length := by
    have hpre : trimSlashList q <+: q := by
      rw [trimSlashList_eq_rdropWhile]
      exact List.rdropWhile_prefix _ _
    exact hpre.length_le
  rw [hidem] at hlen
  simp at hlen

/-- Trimming trailing slashes from a slash-led string yields either the
empty string or a slash-led string of length at least two. -/
theorem trimRightSlash_valid (s : String) (h0 : leadingSlash s = true) :
    trimRightSlash s = "" ∨
      (leadingSlash (trimRightSlash s) = true ∧ 2 ≤ (trimRightSlash s).length) := by
  rcases hl : trimSlashList s.data with _ | ⟨a, t⟩
  · left
    unfold trimRightSlash
    rw [hl]
  · right
    have hpre : trimSlashList s.data <+: s.data := by
      rw [trimSlashList_eq_rdropWhile]
      exact List.rdropWhile_prefix _ _
    rw [hl] at hpre
    rcases hpre with ⟨r, hr⟩
    have hd0 : s.data.head? = some '/' := by simpa [leadingSlash] using h0
    have ha : a = '/' := by
      rw [← hr] at hd0
      simpa using hd0
    constructor
    · simp [leadingSlash, trimRightSlash, hl, ha]
    · rcases t with _ | ⟨b, t2⟩
      · exfalso
        apply trimSlashList_no_slash_end s.data []
        rw [hl, ha]
        rfl
      · simp [trimRightSlash, String.length, hl]

/-- The main-page collapse preserves a leading slash. -/
theorem collapsedObject_leading (website : WebsiteConfiguration) (object0 : String)
    (h0 : leadingSlash object0 = true) :
    leadingSlash (collapsedObject website object0) = true := by
  unfold collapsedObject
  split
  · simp [leadingSlash, String.data_append]
  · exact h0

/-- In the resolver's main branch, the primary probe path is either empty
(trailing-slash trimming emptied a slashes-only object) or slash-led with
length at least two. -/
theorem trimmedObject_dichotomy (website : WebsiteConfiguration) (fb : FirebaseConfiguration)
    (object0 : String) (h0 : leadingSlash object0 = true)
    (hlong : ¬ ((collapsedObject website object0).length ≤ 1 ∨
      collapsedObject website object0 = "/" ++ website.notFoundPage)) :
    trimmedObject website fb object0 = "" ∨
      (leadingSlash (trimmedObject website fb object0) = true ∧
        2 ≤ (trimmedObject website fb object0).length) := by
  push_neg at hlong
  have hlead := collapsedObject_leading website object0 h0
  unfold trimmedObject
  split
  · exact trimRightSlash_valid _ hlead
  · right
    exact ⟨hlead, by omega⟩

/-- C7 fails on the code: for the escaped path "//" under a configured
trailingSlash, the resolver trims the working object to the empty string
and probes the origin with it — a probed path that neither begins with "/"
nor has length at least 2. -/
theorem c7_counterexample :
    (getMetadata headAll200 ⟨"", ""⟩ fbSlashOff "//" "//").heads = [""] ∧
    leadingSlash "" = false ∧ ("" : String).length < 2 :=
  ⟨by decide, by decide, by decide⟩

/-- A rewrite probe that propagated a response either suffered a transport
error (synthesized 500, object unchanged) or committed a slash-led
candidate of length at least two carrying a non-404 status. -/
theorem getRewriteMetadata_some_valid (head : String → HeadResult) (object rewrite : String)
    (r : Response) (obj : String) (hs : List String)
    (h : getRewriteMetadata head object rewrite = (some r, obj, hs)) :
    (r = { status := 500 } ∧ obj = object) ∨
      (r.status ≠ 404 ∧ leadingSlash obj = true ∧ 2 ≤ obj.length) := by
  rcases getRewriteMetadata_cases head object rewrite with ⟨_, he⟩ | ⟨hg, hcase⟩
  · rw [he] at h
    simp at h
  · rcases hcase with ⟨_, he⟩ | ⟨res, _, hst, he⟩ | ⟨res, _, _, he⟩ <;> rw [he] at h <;>
      simp at h
    · exact Or.inl ⟨h.1.symm, h.2.1.symm⟩
    · refine Or.inr ⟨?_, ?_, ?_⟩
      · rw [← h.1]
        exact hst
      · rw [← h.2.1]
        exact hg.2.1
      · rw [← h.2.1]
        have h1 := hg.1
        omega

/-- C7 amended: provided the initial working object begins with "/":
every rewrite-probe path is slash-led with length at least two (rewrite
probes never probe the empty path); every path the resolver probes is
slash-led with length at least two except possibly the primary probe path,
which may be the empty string when trailing-slash trimming empties a
slashes-only working object; when the resolver yields a 200, the resolved
object — the path a body fetch GETs — is likewise slash-led with length at
least two unless it is that emptied primary path; and the not-found-page
fetch path always begins with "/" and has length at least two. -/
theorem c7_amended_probe_paths (head : String → HeadResult) (website : WebsiteConfiguration)
    (fb : FirebaseConfiguration) (get : String → GetResult) (w : Writer)
    (urlPath object0 object rewrite : String) (h0 : leadingSlash object0 = true) :
    (∀ p ∈ (getRewriteMetadata head object rewrite).2.2,
        leadingSlash p = true ∧ 2 ≤ p.length) ∧
    (∀ p ∈ (getMetadata head website fb urlPath object0).heads,
        (leadingSlash p = true ∧ 2 ≤ p.length) ∨
          (p = trimmedObject website fb object0 ∧ p = "")) ∧
    ((getMetadata head website fb urlPath object0).response.status = 200 →
       (leadingSlash (getMetadata head website fb urlPath object0).object = true ∧
           2 ≤ (getMetadata head website fb urlPath object0).object.length) ∨
         ((getMetadata head website fb urlPath object0).object =
             trimmedObject website fb object0 ∧
           (getMetadata head website fb urlPath object0).object = "")) ∧
    (∀ p ∈ (sendNotFound get website fb w).2.2,
        leadingSlash p = true ∧ 2 ≤ p.length) := by
  refine ⟨?_, ?_, ?_, ?_⟩
  · intro p hp
    have := getRewriteMetadata_heads_mem head object rewrite p hp
    refine ⟨this.1 ▸ this.2.2.1, ?_⟩
    have h1 := this.2.1
    rw [this.1]
    omega
  · intro p hp
    unfold getMetadata at hp
    split at hp
    · rcases hrw : getRewriteMetadata head (collapsedObject website object0)
          (fb.processRewrites urlPath) with ⟨r, obj0x, hs⟩
      rw [hrw] at hp
      have hmem : p ∈ hs → leadingSlash p = true ∧ 2 ≤ p.length := by
        intro hin
        have := getRewriteMetadata_heads_mem head (collapsedObject website object0)
          (fb.processRewrites urlPath) p (by rw [hrw]; simpa using hin)
        refine ⟨this.1 ▸ this.2.2.1, ?_⟩
        have h1 := this.2.1
        rw [this.1]
        omega
      rcases r with _ | res <;> dsimp only at hp <;> exact Or.inl (hmem hp)
    · rename_i hlong
      have hprim2 : (leadingSlash (trimmedObject website fb object0) = true ∧
          2 ≤ (trimmedObject website fb object0).length) ∨
          (trimmedObject website fb object0 = trimmedObject website fb object0 ∧
            trimmedObject website fb object0 = "") := by
        rcases trimmedObject_dichotomy website fb object0 h0 hlong with h | h
        · exact Or.inr ⟨rfl, h⟩
        · exact Or.inl h
      have hrwmem : ∀ cand : String, p ∈ (getRewriteMetadata head
          (trimmedObject website fb object0) cand).2.2 →
          leadingSlash p = true ∧ 2 ≤ p.length := by
        intro cand hin
        have := getRewriteMetadata_heads_mem head (trimmedObject website fb object0)
          cand p hin
        refine ⟨this.1 ▸ this.2.2.1, ?_⟩
        have h1 := this.2.1
        rw [this.1]
        omega
      rcases hh : head (trimmedObject website fb object0) with _ | res <;> rw [hh] at hp
      · dsimp only at hp
        simp at hp
        rw [hp]
        exact hprim2
      · dsimp only at hp
        split at hp
        · rcases hrw1 : getRewriteMetadata head (trimmedObject website fb object0)
              (trimRightSlash (trimmedObject website fb object0) ++
                ("/" ++ website.mainPageSuffix)) with ⟨r1, obj1, hs1⟩
          rw [hrw1] at hp
          have hobj1 : r1 = none → obj1 = trimmedObject website fb object0 := fun hr1 =>
            getRewriteMetadata_none_object head _ _ obj1 hs1 (hr1 ▸ hrw1)
          rcases r1 with _ | res1
          · dsimp only at hp
            have hmem1 : p ∈ hs1 → leadingSlash p = true ∧ 2 ≤ p.length :=
              fun hin => hrwmem _ (by rw [hrw1]; simpa using hin)
            rcases hrw2 : (if fb.cleanUrls then
                getRewriteMetadata head obj1 (trimRightSlash obj1 ++ ".html")
              else (none, obj1, [])) with ⟨r2, obj2, hs2⟩
            rw [hrw2] at hp
            have hmem2 : p ∈ hs2 → leadingSlash p = true ∧ 2 ≤ p.length := by
              intro hin
              by_cases hcu : fb.cleanUrls = true
              · rw [if_pos hcu] at hrw2
                rw [hobj1 rfl] at hrw2
                exact hrwmem _ (by rw [hrw2]; simpa using hin)
              · rw [if_neg hcu] at hrw2
                simp at hrw2
                rw [hrw2.2.2] at hin
                simp at hin
            rcases r2 with _ | res2
            · dsimp only at hp
              rcases hrw3 : getRewriteMetadata head obj2 (fb.processRewrites urlPath)
                  with ⟨r3, obj3, hs3⟩
              rw [hrw3] at hp
              have hobj2 : obj2 = trimmedObject website fb object0 := by
                by_cases hcu : fb.cleanUrls = true
                · rw [if_pos hcu] at hrw2
                  have := getRewriteMetadata_none_object head obj1 _ obj2 hs2 hrw2
                  rw [this]
                  exact hobj1 rfl
                · rw [if_neg hcu] at hrw2
                  simp at hrw2
                  rw [← hrw2.1]
                  exact hobj1 rfl
              have hmem3 : p ∈ hs3 → leadingSlash p = true ∧ 2 ≤ p.length := by
                intro hin
                rw [hobj2] at hrw3
                exact hrwmem _ (by rw [hrw3]; simpa using hin)
              rcases r3 with _ | res3 <;> dsimp only at hp <;> simp at hp <;>
                rcases hp with hp | hp | hp | hp
              · rw [hp]
                exact hprim2
              · exact Or.inl (hmem1 hp)
              · exact Or.inl (hmem2 hp)
              · exact Or.inl (hmem3 hp)
              · rw [hp]
                exact hprim2
              · exact Or.inl (hmem1 hp)
              · exact Or.inl (hmem2 hp)
              · exact Or.inl (hmem3 hp)
            · dsimp only at hp
              simp at hp
              rcases hp with hp | hp | hp
              · rw [hp]
                exact hprim2
              · exact Or.inl (hmem1 hp)
              · exact Or.inl (hmem2 hp)
          · dsimp only at hp
            simp at hp
            rcases hp with hp | hp
            · rw [hp]
              exact hprim2
            · exact Or.inl (hrwmem _ (by rw [hrw1]; simpa using hp))
        · simp at hp
          rw [hp]
          exact hprim2
  · intro h200
    unfold getMetadata at h200 ⊢
    split at h200
    · rename_i hsc
      rw [if_pos hsc]
      rcases hrw : getRewriteMetadata head (collapsedObject website object0)
          (fb.processRewrites urlPath) with ⟨r0, obj0x, hs0⟩
      rw [hrw] at h200
      rcases r0 with _ | res0 <;> dsimp only at h200 ⊢
      · exact absurd h200 (by decide)
      · rcases getRewriteMetadata_some_valid head _ _ res0 obj0x hs0 hrw with ⟨h5, _⟩ | h
        · rw [h5] at h200
          exact absurd h200 (by decide)
        · exact Or.inl ⟨h.2.1, h.2.2⟩
    · rename_i hsc
      rw [if_neg hsc]
      have hprim2 : (leadingSlash (trimmedObject website fb object0) = true ∧
          2 ≤ (trimmedObject website fb object0).length) ∨
          (trimmedObject website fb object0 = trimmedObject website fb object0 ∧
            trimmedObject website fb object0 = "") := by
        rcases trimmedObject_dichotomy website fb object0 h0 hsc with h | h
        · exact Or.inr ⟨rfl, h⟩
        · exact Or.inl h
      rcases hh : head (trimmedObject website fb object0) with _ | res <;> rw [hh] at h200 <;>
        dsimp only at h200 ⊢
      · exact absurd h200 (by decide)
      · split at h200
        · rename_i hfb
          rw [if_pos hfb]
          rcases hrw1 : getRewriteMetadata head (trimmedObject website fb object0)
              (trimRightSlash (trimmedObject website fb object0) ++
                ("/" ++ website.mainPageSuffix)) with ⟨r1, obj1, hs1⟩
          rw [hrw1] at h200
          rcases r1 with _ | res1 <;> dsimp only at h200 ⊢
          · have hobj1 : obj1 = trimmedObject website fb object0 :=
              getRewriteMetadata_none_object head _ _ obj1 hs1 hrw1
            rcases hrw2 : (if fb.cleanUrls then
                getRewriteMetadata head obj1 (trimRightSlash obj1 ++ ".html")
              else (none, obj1, [])) with ⟨r2, obj2, hs2⟩
            rw [hrw2] at h200
            rcases r2 with _ | res2 <;> dsimp only at h200 ⊢
            · have hobj2 : obj2 = obj1 := by
                by_cases hcu : fb.cleanUrls = true
                · rw [if_pos hcu] at hrw2
                  exact getRewriteMetadata_none_object head obj1 _ obj2 hs2 hrw2
                · rw [if_neg hcu] at hrw2
                  simp at hrw2
                  exact hrw2.1.symm
              rcases hrw3 : getRewriteMetadata head obj2 (fb.processRewrites urlPath)
                  with ⟨r3, obj3, hs3⟩
              rw [hrw3] at h200
              rcases r3 with _ | res3 <;> dsimp only at h200 ⊢
              · have hobj3 : obj3 = obj2 :=
                  getRewriteMetadata_none_object head obj2 _ obj3 hs3 hrw3
                rw [hobj3, hobj2, hobj1]
                exact hprim2
              · rcases getRewriteMetadata_some_valid head obj2 _ res3 obj3 hs3 hrw3
                    with ⟨h5, _⟩ | h
                · rw [h5] at h200
                  exact absurd h200 (by decide)
                · exact Or.inl ⟨h.2.1, h.2.2⟩
            · by_cases hcu : fb.cleanUrls = true
              · rw [if_pos hcu] at hrw2
                rcases getRewriteMetadata_some_valid head obj1 _ res2 obj2 hs2 hrw2
                    with ⟨h5, _⟩ | h
                · rw [h5] at h200
                  exact absurd h200 (by decide)
                · exact Or.inl ⟨h.2.1, h.2.2⟩
              · rw [if_neg hcu] at hrw2
                simp at hrw2
          · rcases getRewriteMetadata_some_valid head _ _ res1 obj1 hs1 hrw1 with ⟨h5, _⟩ | h
            · rw [h5] at h200
              exact absurd h200 (by decide)
            · exact Or.inl ⟨h.2.1, h.2.2⟩
        · rename_i hfb
          rw [if_neg hfb]
          dsimp only
          exact hprim2
  · intro p hp
    unfold sendNotFound at hp
    split at hp
    · simp at hp
    · rename_i hlen
      push_neg at hlen
      have hmem : p = "/" ++ website.notFoundPage → leadingSlash p = true ∧ 2 ≤ p.length := by
        intro hpe
        subst hpe
        constructor
        · simp [leadingSlash, String.data_append]
        · omega
      rcases hg : get ("/" ++ website.notFoundPage) with _ | ⟨res, body⟩
      · rw [hg] at hp
        dsimp only at hp
        simp at hp
        exact hmem hp
      · rw [hg] at hp
        dsimp only at hp
        split at hp <;> simp at hp <;> exact hmem hp

/-- Concrete instance of the amended C7 theorem: the resolver yields 200
for a root request, and the resolved object "/index.html" — the body-fetch
path — is slash-led with length at least two (or would be the emptied
primary path, which it is not here). -/
theorem c7_witness :
    (leadingSlash (getMetadata headAll200 ⟨"index.html", "404.html"⟩ fbNoRules
          "/" "/index.html").object = true ∧
        2 ≤ (getMetadata headAll200 ⟨"index.html", "404.html"⟩ fbNoRules
          "/" "/index.html").object.length) ∨
      ((getMetadata headAll200 ⟨"index.html", "404.html"⟩ fbNoRules
            "/" "/index.html").object =
          trimmedObject ⟨"index.html", "404.html"⟩ fbNoRules "/index.html" ∧
        (getMetadata headAll200 ⟨"index.html", "404.html"⟩ fbNoRules
          "/" "/index.html").object = "") :=
  (c7_amended_probe_paths headAll200 ⟨"index.html", "404.html"⟩ fbNoRules
      (fun _ => .err) {} "/" "/index.html" "/x" "/y" (by decide)).2.2.1 (by decide)

/-- No path probed by a rewrite probe that propagated nothing can have
suffered a transport error. -/
theorem getRewriteMetadata_none_no_err (head : String → HeadResult) (object rewrite p : String)
    (obj : String) (hs : List String)
    (h : getRewriteMetadata head object rewrite = (none, obj, hs))
    (hp : p ∈ hs) (he : head p = .err) : False := by
  have hx := getRewriteMetadata_err_mem head object rewrite p (by rw [h]; simpa using hp) he
  rw [h] at hx
  simp at hx

/-- If a rewrite probe propagated a response and its probed path suffered a
transport error, the response is the synthesized 500, the object is
unchanged, and that path was the only probe. -/
theorem getRewriteMetadata_some_err (head : String → HeadResult) (object rewrite p : String)
    (r : Response) (obj : String) (hs : List String)
    (h : getRewriteMetadata head object rewrite = (some r, obj, hs))
    (hp : p ∈ hs) (he : head p = .err) :
    r = { status := 500 } ∧ obj = object ∧ hs = [p] := by
  have hx := getRewriteMetadata_err_mem head object rewrite p (by rw [h]; simpa using hp) he
  rw [h] at hx
  simp at hx
  exact hx

/-- C10: (1) a transport error on a guarded rewrite probe yields the
synthesized 500 with the working object unchanged and no further probing;
(2) a candidate is committed as the new working object only when the probe
returns an actual non-404 origin response; (3) inside the resolver, any
probed path that suffers a transport error is the last path probed, the
resolver's response is the synthesized 500, and the working object is left
at its pre-fallback value. -/
theorem c10_probe_error_policy (head : String → HeadResult) (website : WebsiteConfiguration)
    (fb : FirebaseConfiguration) (urlPath object0 object rewrite p : String)
    (r : Option Response) (obj : String) (hs : List String) :
    ((1 < rewrite.length ∧ leadingSlash rewrite = true ∧ rewrite ≠ object) →
       head rewrite = .err →
       getRewriteMetadata head object rewrite = (some { status := 500 }, object, [rewrite])) ∧
    (getRewriteMetadata head object rewrite = (r, obj, hs) → obj ≠ object →
       ∃ res, head rewrite = .ok res ∧ res.status ≠ 404 ∧ r = some res ∧ obj = rewrite) ∧
    (p ∈ (getMetadata head website fb urlPath object0).heads → head p = .err →
       (getMetadata head website fb urlPath object0).response = { status := 500 } ∧
       (getMetadata head website fb urlPath object0).object =
         (if (collapsedObject website object0).length ≤ 1 ∨
             collapsedObject website object0 = "/" ++ website.notFoundPage then
            collapsedObject website object0
          else trimmedObject website fb object0) ∧
       (getMetadata head website fb urlPath object0).heads.getLast? = some p) := by
  refine ⟨getRewriteMetadata_err head object rewrite,
    getRewriteMetadata_commit head object rewrite r obj hs, ?_⟩
  intro hp he
  unfold getMetadata at hp ⊢
  split at hp
  · rename_i hsc
    rw [if_pos hsc]
    rcases hrw : getRewriteMetadata head (collapsedObject website object0)
        (fb.processRewrites urlPath) with ⟨r0, obj0x, hs0⟩
    rw [hrw] at hp
    rcases r0 with _ | res0 <;> dsimp only at hp ⊢
    · exact (getRewriteMetadata_none_no_err head _ _ p obj0x hs0 hrw hp he).elim
    · have hx := getRewriteMetadata_some_err head _ _ p res0 obj0x hs0 hrw hp he
      refine ⟨by rw [hx.1], ?_, ?_⟩
      · rw [hx.2.1]
        exact (if_pos hsc).symm
      · rw [hx.2.2]
        rfl
  · rename_i hsc
    rw [if_neg hsc]
    rcases hh : head (trimmedObject website fb object0) with _ | res <;> rw [hh] at hp <;>
      dsimp only at hp ⊢
    · simp at hp
      subst hp
      exact ⟨rfl, (if_neg hsc).symm, rfl⟩
    · split at hp
      · rename_i hfb
        rw [if_pos hfb]
        rcases hrw1 : getRewriteMetadata head (trimmedObject website fb object0)
            (trimRightSlash (trimmedObject website fb object0) ++
              ("/" ++ website.mainPageSuffix)) with ⟨r1, obj1, hs1⟩
        rw [hrw1] at hp
        rcases r1 with _ | res1 <;> dsimp only at hp ⊢
        · have hobj1 : obj1 = trimmedObject website fb object0 :=
            getRewriteMetadata_none_object head _ _ obj1 hs1 hrw1
          have hmem1 : p ∈ hs1 → False := fun hin =>
            getRewriteMetadata_none_no_err head _ _ p obj1 hs1 hrw1 hin he
          rcases hrw2 : (if fb.cleanUrls then
              getRewriteMetadata head obj1 (trimRightSlash obj1 ++ ".html")
            else (none, obj1, [])) with ⟨r2, obj2, hs2⟩
          rw [hrw2] at hp
          rcases r2 with _ | res2 <;> dsimp only at hp ⊢
          · have hmem2 : p ∈ hs2 → False := by
              intro hin
              by_cases hcu : fb.cleanUrls = true
              · rw [if_pos hcu] at hrw2
                exact getRewriteMetadata_none_no_err head _ _ p obj2 hs2 hrw2 hin he
              · rw [if_neg hcu] at hrw2
                simp at hrw2
                rw [hrw2.2] at hin
                simp at hin
            have hobj2 : obj2 = obj1 := by
              by_cases hcu : fb.cleanUrls = true
              · rw [if_pos hcu] at hrw2
                exact getRewriteMetadata_none_object head _ _ obj2 hs2 hrw2
              · rw [if_neg hcu] at hrw2
                simp at hrw2
                exact hrw2.1.symm
            rcases hrw3 : getRewriteMetadata head obj2 (fb.processRewrites urlPath)
                with ⟨r3, obj3, hs3⟩
            rw [hrw3] at hp
            rcases r3 with _ | res3 <;> dsimp only at hp ⊢ <;> simp at hp <;>
              rcases hp with hp | hp | hp | hp
            · exact HeadResult.noConfusion (hh.symm.trans (hp ▸ he))
            · exact (hmem1 hp).elim
            · exact (hmem2 hp).elim
            · exact (getRewriteMetadata_none_no_err head _ _ p obj3 hs3 hrw3 hp he).elim
            · exact HeadResult.noConfusion (hh.symm.trans (hp ▸ he))
            · exact (hmem1 hp).elim
            · exact (hmem2 hp).elim
            · have hx := getRewriteMetadata_some_err head obj2 _ p res3 obj3 hs3 hrw3 hp he
              refine ⟨by rw [hx.1], ?_, ?_⟩
              · rw [hx.2.1, hobj2, hobj1]
                exact (if_neg hsc).symm
              · rw [hx.2.2]
                exact getLast?_cons_concat _ _ _
          · simp at hp
            rcases hp with hp | hp | hp
            · exact HeadResult.noConfusion (hh.symm.trans (hp ▸ he))
            · exact (hmem1 hp).elim
            · by_cases hcu : fb.cleanUrls = true
              · rw [if_pos hcu] at hrw2
                have hx := getRewriteMetadata_some_err head obj1 _ p res2 obj2 hs2 hrw2 hp he
                refine ⟨by rw [hx.1], ?_, ?_⟩
                · rw [hx.2.1, hobj1]
                  exact (if_neg hsc).symm
                · rw [hx.2.2]
                  exact getLast?_cons_concat _ _ _
              · rw [if_neg hcu] at hrw2
                simp at hrw2
        · simp at hp
          rcases hp with hp | hp
          · exact HeadResult.noConfusion (hh.symm.trans (hp ▸ he))
          · have hx := getRewriteMetadata_some_err head _ _ p res1 obj1 hs1 hrw1 hp he
            refine ⟨by rw [hx.1], ?_, ?_⟩
            · rw [hx.2.1]
              exact (if_neg hsc).symm
            · rw [hx.2.2]
              exact getLast?_cons_concat _ _ []
      · simp at hp
        exact HeadResult.noConfusion (hh.symm.trans (hp ▸ he))

/-- Concrete instance of the C10 theorem: a transport error on the guarded
candidate "/y" yields the synthesized 500 with the working object "/x"
unchanged. -/
theorem c10_witness :
    getRewriteMetadata (fun _ => HeadResult.err) "/x" "/y" =
      (some { status := 500 }, "/x", ["/y"]) :=
  (c10_probe_error_policy (fun _ => HeadResult.err) ⟨"", ""⟩ fbNoRules "" "" "/x" "/y" ""
      none "" []).1 (by decide) rfl

/-- C8: with no configured not-found page the dispatcher replies 404 and
writes nothing; otherwise it GETs the page and returns 500 on transport
error or any non-200 status, and on 200 writes status 404 with the page
body, copying Content-Type, Content-Language and Content-Disposition and
applying the security baseline and processHeaders. -/
theorem c8_not_found_dispatch (get : String → GetResult) (website : WebsiteConfiguration)
    (fb : FirebaseConfiguration) (w : Writer) (res : Response) (body : String) :
    (website.notFoundPage = "" →
       sendNotFound get website fb w = ({ status := 404 }, w, [])) ∧
    (website.notFoundPage ≠ "" → get ("/" ++ website.notFoundPage) = .err →
       sendNotFound get website fb w = ({ status := 500 }, w, ["/" ++ website.notFoundPage])) ∧
    (website.notFoundPage ≠ "" → get ("/" ++ website.notFoundPage) = .ok res body →
       res.status ≠ 200 →
       sendNotFound get website fb w = ({ status := 500 }, w, ["/" ++ website.notFoundPage])) ∧
    (website.notFoundPage ≠ "" → get ("/" ++ website.notFoundPage) = .ok res body →
       res.status = 200 →
       sendNotFound get website fb w =
         ({}, { headers := fb.processHeaders ("/" ++ website.notFoundPage)
                  (setHeaders (hset (hset (hset w.headers
                    "Content-Type" res.headers.contentType)
                    "Content-Language" res.headers.contentLanguage)
                    "Content-Disposition" res.headers.contentDisposition)),
                wroteStatus := some 404, body := some body },
          ["/" ++ website.notFoundPage])) := by
  have hone : ("/" : String).length = 1 := rfl
  refine ⟨?_, ?_, ?_, ?_⟩
  · intro h
    unfold sendNotFound
    rw [if_pos (by rw [h]; decide)]
  · intro h hg
    have hc : ¬ (("/" ++ website.notFoundPage).length ≤ 1) := by
      have := length_pos_of_ne_empty _ h
      rw [String.length_append]
      omega
    unfold sendNotFound
    rw [if_neg hc, hg]
  · intro h hg hst
    have hc : ¬ (("/" ++ website.notFoundPage).length ≤ 1) := by
      have := length_pos_of_ne_empty _ h
      rw [String.length_append]
      omega
    unfold sendNotFound
    rw [if_neg hc, hg]
    dsimp only
    rw [if_pos hst]
  · intro h hg hst
    have hc : ¬ (("/" ++ website.notFoundPage).length ≤ 1) := by
      have := length_pos_of_ne_empty _ h
      rw [String.length_append]
      omega
    unfold sendNotFound
    rw [if_neg hc, hg]
    dsimp only
    rw [if_neg (by simp [hst])]

/-- Concrete instance of the C8 theorem: an empty notFoundPage replies 404
with the writer untouched and no origin GET. -/
theorem c8_witness :
    sendNotFound (fun _ => GetResult.err) ⟨"", ""⟩ fbNoRules {} =
      ({ status := 404 }, {}, []) :=
  (c8_not_found_dispatch (fun _ => GetResult.err) ⟨"", ""⟩ fbNoRules {}
      { status := 200 } "").1 rfl

/-- C9 fails on the code: the query string is not preserved verbatim — the
raw query "b=2&a=1" is re-encoded from its parsed form with keys sorted,
producing "?a=1&b=2". -/
theorem c9_counterexample :
    getQuery "b=2&a=1" = "?a=1&b=2" ∧ ("?a=1&b=2" : String) ≠ "?b=2&a=1" :=
  ⟨by decide, by decide⟩

/-- C9 amended: redirect responses append getQuery to the Location value,
where getQuery is the query re-encoded from its parsed form (keys sorted
and escaping normalized — equal to the raw query only when it is already
in canonical form), and no "?" is appended when the request has no query
string. -/
theorem c9_amended_query_append (o : Oracles) (fb : FirebaseConfiguration) (req : RequestModel)
    (hm : req.method = "GET" ∨ req.method = "HEAD") :
    (∀ rcode location, fb.processRedirects req.urlPath = (rcode, location) → rcode ≠ 0 →
       (staticWebsiteHandler o fb req).1 =
         { status := rcode, location := location ++ getQuery req.rawQuery }) ∧
    (∀ website location0 cl, fb.processRedirects req.urlPath = (0, location0) →
       effectiveWebsite o = some website →
       getCleanURL fb.cleanUrls fb.trailingSlash website.mainPageSuffix req.urlPath = cl →
       cl ≠ "" →
       (staticWebsiteHandler o fb req).1 =
         { status := 301, location := cl ++ getQuery req.rawQuery }) ∧
    (req.rawQuery = "" → getQuery req.rawQuery = "") := by
  have hcm : checkMethod req.method ({} : Writer) = (0, {}) := by
    unfold checkMethod
    rw [if_neg (by rcases hm with h | h <;> simp [h])]
  refine ⟨?_, ?_, ?_⟩
  · intro rcode location hred hne
    unfold staticWebsiteHandler
    rw [hcm, hred]
    dsimp only
    rw [if_pos hne, if_neg (fun h => h rfl)]
  · intro website location0 cl hred hweb hcl hclne
    unfold staticWebsiteHandler
    rw [hcm, hred, hweb]
    dsimp only
    rw [hcl, if_pos hclne, if_neg (fun h => h rfl), if_neg (fun h => h rfl)]
  · intro h
    rw [h]
    decide

/-- Concrete instance of the amended C9 theorem: a 302 redirect rule
appends the re-encoded query to its location. -/
theorem c9_witness :
    (staticWebsiteHandler
        { head := headAll200, get := fun _ => GetResult.err, blobKey := fun _ => none,
          parseTime := fun _ => none, cachedWebsite := some ⟨"", ""⟩ }
        { fbNoRules with processRedirects := fun _ => (302, "/dest") }
        { method := "GET", bucket := "b", urlPath := "/p", escapedPath := "/p",
          rawQuery := "b=2&a=1" }).1 =
      { status := 302, location := "/dest" ++ getQuery "b=2&a=1" } :=
  (c9_amended_query_append
      { head := headAll200, get := fun _ => GetResult.err, blobKey := fun _ => none,
        parseTime := fun _ => none, cachedWebsite := some ⟨"", ""⟩ }
      { fbNoRules with processRedirects := fun _ => (302, "/dest") }
      { method := "GET", bucket := "b", urlPath := "/p", escapedPath := "/p",
        rawQuery := "b=2&a=1" }
      (Or.inl rfl)).1 302 "/dest" rfl (by decide)

end Hosting
